import Mathlib

/-!
# Verification of the VPS log-ingestion tools

Shallow embedding of the record decoders, derived-field functions, filter
pipeline and partition writer of the `vps` repository
(`src/tools/log_parser/log_parser.py`, `src/tools/log_parser/sim_log_parser.py`,
`src/tools/log_parser/fb_parser.py`, `src/scripts/parse_edge_log.py`,
`src/scripts/parse_edge_transit_log.py`), together with proofs of the
spec's testable properties about them.

Machine integers are modelled as `Nat` (all the decoded fields are unsigned);
Python's arbitrary-precision signed arithmetic on differences is modelled as
`Int`; the float values appearing in `speed` are modelled as `ℚ` and the raw
`f32` field of a binary record is modelled by its 32-bit pattern.
-/

namespace VPS

/-! ## Fixed-record decoder (`log_parser.py` / `parse_edge_log.py`)

`RECORD_SIZE = 28`, `RECORD_FORMAT = '<IBBHIIIfB3x'` (little-endian).
Field layout: timestamp@0 (u32), workerId@4 (u8), fabId@5 (u8), edgeId@6
(u16), vehId@8 (u32), enterTime@12 (u32), exitTime@16 (u32), edgeLength@20
(f32), edgeType@24 (u8), 3 pad bytes @25.

A byte buffer is a `List Nat` whose entries are `< 256`.  The `edgeLength`
float is represented by its 32-bit little-endian pattern: `struct.unpack`
converts it to a Python float (binary64) and `struct.pack` converts it back
to binary32, which preserves the 32-bit pattern for every non-NaN pattern. -/

/-- Little-endian 16-bit value from two bytes. -/
def le2 (b0 b1 : Nat) : Nat := b0 + 256 * b1

/-- Little-endian 32-bit value from four bytes. -/
def le4 (b0 b1 b2 b3 : Nat) : Nat := b0 + 256 * b1 + 65536 * b2 + 16777216 * b3

/-- One decoded 28-byte record, as built by `struct.unpack(RECORD_FORMAT, data)`
in `parse_log_file`.  `edgeLengthBits` is the 32-bit pattern of the `f32`
field at offset 20. -/
structure RawRecord where
  timestamp : Nat
  worker_id : Nat
  fab_id : Nat
  edge_id : Nat
  veh_id : Nat
  enter_time : Nat
  exit_time : Nat
  edgeLengthBits : Nat
  edge_type : Nat
deriving Repr, DecidableEq

/-- Decode one 28-byte chunk at the layout of `RECORD_FORMAT`: the bytes of
the chunk in file order are `timestamp@0..3`, `workerId@4`, `fabId@5`,
`edgeId@6..7`, `vehId@8..11`, `enterTime@12..15`, `exitTime@16..19`,
`edgeLength@20..23`, `edgeType@24`; the three pad bytes at offsets 25-27 are
skipped by `struct.unpack`, per the `3x` format code (the wildcard tail).
The catch-all branch is unreachable: `struct.unpack` is only ever applied to
full 28-byte chunks. -/
def decodeRecord28 : List Nat → RawRecord
  | b0 :: b1 :: b2 :: b3 :: b4 :: b5 :: b6 :: b7 :: b8 :: b9 :: b10 :: b11 ::
    b12 :: b13 :: b14 :: b15 :: b16 :: b17 :: b18 :: b19 :: b20 :: b21 :: b22 ::
    b23 :: b24 :: _ =>
    { timestamp := le4 b0 b1 b2 b3, worker_id := b4, fab_id := b5,
      edge_id := le2 b6 b7, veh_id := le4 b8 b9 b10 b11,
      enter_time := le4 b12 b13 b14 b15, exit_time := le4 b16 b17 b18 b19,
      edgeLengthBits := le4 b20 b21 b22 b23, edge_type := b24 }
  | _ => ⟨0, 0, 0, 0, 0, 0, 0, 0, 0⟩

/-- Re-encode a record with `struct.pack(RECORD_FORMAT, ...)`, as done in
`split_by_veh` of `log_parser.py`.  `struct.pack` emits zero bytes for the
`3x` padding. -/
def encodeRecord (r : RawRecord) : List Nat :=
  [r.timestamp % 256, r.timestamp / 256 % 256, r.timestamp / 65536 % 256,
     r.timestamp / 16777216 % 256,
   r.worker_id % 256, r.fab_id % 256,
   r.edge_id % 256, r.edge_id / 256 % 256,
   r.veh_id % 256, r.veh_id / 256 % 256, r.veh_id / 65536 % 256,
     r.veh_id / 16777216 % 256,
   r.enter_time % 256, r.enter_time / 256 % 256, r.enter_time / 65536 % 256,
     r.enter_time / 16777216 % 256,
   r.exit_time % 256, r.exit_time / 256 % 256, r.exit_time / 65536 % 256,
     r.exit_time / 16777216 % 256,
   r.edgeLengthBits % 256, r.edgeLengthBits / 256 % 256,
     r.edgeLengthBits / 65536 % 256, r.edgeLengthBits / 16777216 % 256,
   r.edge_type % 256,
   0, 0, 0]

/-- The reading loop of `parse_log_file`: read 28 bytes at a time, stop as
soon as fewer than 28 bytes remain (the trailing partial record, if any, is
dropped without an error). -/
def parse_log_file (bs : List Nat) : List RawRecord :=
  if _h : 28 ≤ bs.length then
    decodeRecord28 (bs.take 28) :: parse_log_file (bs.drop 28)
  else []
termination_by bs.length
decreasing_by simp only [List.length_drop]; omega

/-- A 32-bit pattern denotes an IEEE-754 binary32 NaN iff its exponent field
(bits 23-30) is all ones and its mantissa (bits 0-22) is nonzero.  Used to
state the caveat under which the float field's byte pattern survives the
`f32 → Python float → f32` conversion performed by `struct`. -/
def isNaN32 (v : Nat) : Prop := v / 8388608 % 256 = 255 ∧ v % 8388608 ≠ 0

instance (v : Nat) : Decidable (isNaN32 v) := by unfold isNaN32; infer_instance

/-! ## Derived fields of a transit record (`parse_edge_log.py` /
`log_parser.py`, class `EdgeTransitRecord`)

The dataclass holds the unpacked field values; `edge_length` is the Python
float value of the `f32` field, modelled as a rational.  `transit_time`
is Python integer subtraction (which may be negative), modelled as `Int`. -/

structure EdgeTransitRecord where
  timestamp : Nat
  worker_id : Nat
  fab_id : Nat
  edge_id : Nat
  veh_id : Nat
  enter_time : Nat
  exit_time : Nat
  edge_length : ℚ
  edge_type : Nat
deriving Repr, DecidableEq

/-- `transit_time = self.exit_time - self.enter_time` (Python ints: the
difference of two unsigned decoded values can be negative). -/
def EdgeTransitRecord.transit_time (r : EdgeTransitRecord) : Int :=
  (r.exit_time : Int) - (r.enter_time : Int)

/-- The `speed` property: `0.0` when `transit_time <= 0`, else
`edge_length / (transit_time / 1000.0)`. -/
def EdgeTransitRecord.speed (r : EdgeTransitRecord) : ℚ :=
  if r.transit_time ≤ 0 then 0
  else r.edge_length / ((r.transit_time : ℚ) / 1000)

/-- Modelled from the spec: the spec's error-handling design calls for a
degenerate speed to be "an explicit 'no value' rather than a sentinel like
zero"; this is the speed function that representation would give.  No such
function exists in the source. -/
def speedSpec (r : EdgeTransitRecord) : Option ℚ :=
  if r.transit_time ≤ 0 then none
  else some (r.edge_length / ((r.transit_time : ℚ) / 1000))

/-! ## Checkpoint-flag decoding (`fb_parser.py`, `decode_checkpoint_flags`) -/

/-- `decode_checkpoint_flags`: `0` is the distinguished "all cleared /
checkpoint complete" label; otherwise the names of the set bits among
`0x01/0x02/0x04/0x08` are collected in order and joined with `"|"`, and if
none of those bits is set the fallback is `f"UNKNOWN({flags})"`. -/
def decode_checkpoint_flags (flags : Nat) : String :=
  if flags = 0 then "COMPLETED"
  else
    let names : List String :=
      (if flags &&& 0x01 ≠ 0 then ["LOCK_REQUEST"] else []) ++
      (if flags &&& 0x02 ≠ 0 then ["LOCK_WAIT"] else []) ++
      (if flags &&& 0x04 ≠ 0 then ["LOCK_RELEASE"] else []) ++
      (if flags &&& 0x08 ≠ 0 then ["MOVE_PREPARE"] else [])
    if names ≠ [] then String.intercalate "|" names
    else "UNKNOWN(" ++ Nat.repr flags ++ ")"

/-- The claim's reading of nonzero-flag decoding: the names of the set bits
among the four named bits, joined by `"|"` (with no fallback case). -/
def claimedFlagsStr (flags : Nat) : String :=
  String.intercalate "|"
    ((if flags.testBit 0 then ["LOCK_REQUEST"] else []) ++
     (if flags.testBit 1 then ["LOCK_WAIT"] else []) ++
     (if flags.testBit 2 then ["LOCK_RELEASE"] else []) ++
     (if flags.testBit 3 then ["MOVE_PREPARE"] else []))

/-! ## Text-line decoder (`sim_log_parser.py`)

`LOG_PATTERN` is
`\[(\d{2}:\d{2}:\d{2}\.\d{3})\]\s*\[(\w+)\s*\]\s*\[([^\]]+)\]\s*\[([^\]]+)\]\s*\[([^\]]+)\]\s*(.*)`
used with `re.match` on the stripped line.  Each greedy class (`\d`, `\w`,
`\s`, `[^\]]`) is disjoint from its terminator, so the match is
deterministic maximal munch, modelled by a sequential matcher.  Character
classes are modelled on their ASCII fragment. -/

/-- Python whitespace for `str.strip` / regex `\s` (ASCII fragment:
space, tab, newline, carriage return, vertical tab, form feed). -/
def isWs (c : Char) : Bool :=
  c = ' ' || c = '\t' || c = '\n' || c = '\r' || c.toNat = 11 || c.toNat = 12

/-- Regex `\w` (ASCII fragment). -/
def isWordChar (c : Char) : Bool := c.isAlphanum || c = '_'

def dropWsEnd (cs : List Char) : List Char := (cs.reverse.dropWhile isWs).reverse

/-- Python `str.strip()`. -/
def pyStrip (cs : List Char) : List Char := dropWsEnd (cs.dropWhile isWs)

/-- Python `int()` on a digit string. -/
def strToNat (cs : List Char) : Nat := cs.foldl (fun a c => a * 10 + (c.toNat - 48)) 0

/-- Python `str.split(sep)` for a one-character separator. -/
def splitOnChar (sep : Char) : List Char → List (List Char)
  | [] => [[]]
  | c :: cs =>
    let r := splitOnChar sep cs
    if c = sep then [] :: r else (c :: r.headD []) :: r.tail

/-- The `LogEntry` dataclass of `sim_log_parser.py`. -/
structure LogEntry where
  timestamp : String
  level : String
  scope : String
  source : String
  tag : String
  message : String
  line_num : Nat
deriving Repr, DecidableEq

/-- `VEH_PATTERN = re.compile(r'veh:(\d+)')` used with `.match` (anchored at
the start of `scope`): the literal `veh:` followed by a maximal nonempty
digit run; anything after the digits is ignored by `.match`. -/
def vehIdOfScope (scope : String) : Option Nat :=
  match scope.data with
  | 'v' :: 'e' :: 'h' :: ':' :: rest =>
    let ds := rest.takeWhile Char.isDigit
    if ds.isEmpty then none else some (strToNat ds)
  | _ => none

/-- `LogEntry.veh_id` — `None` exactly when the scope does not start with
`veh:<digits>`. -/
def LogEntry.veh_id (e : LogEntry) : Option Nat := vehIdOfScope e.scope

/-- `LogEntry.is_global` — `self.scope == "global"`. -/
def LogEntry.is_global (e : LogEntry) : Bool := e.scope == "global"

/-- `LogEntry.file_name` — `source.split(':')[0] if ':' in source else
source`, i.e. the part of `source` before the first colon. -/
def LogEntry.file_name (e : LogEntry) : String :=
  ⟨e.source.data.takeWhile (· ≠ ':')⟩

/-- `LogEntry.time_ms` on the character list of the timestamp: split on
`':'`; hours and minutes from the first two parts; the third part is split
on `'.'` for seconds and milliseconds.  The line grammar guarantees the
`HH:MM:SS.mmm` shape (exactly three `':'` parts, the last with exactly one
`'.'`); on any other shape Python would raise, which this total model maps
to `0`. -/
def timeMsOfChars (cs : List Char) : Nat :=
  match splitOnChar ':' cs with
  | [hs, mins, rest] =>
    match splitOnChar '.' rest with
    | [ss, mss] =>
      ((strToNat hs * 60 + strToNat mins) * 60 + strToNat ss) * 1000 + strToNat mss
    | _ => 0
  | _ => 0

def LogEntry.time_ms (e : LogEntry) : Nat := timeMsOfChars e.timestamp.data

def takeDigit : List Char → Option (Char × List Char)
  | c :: cs => if c.isDigit then some (c, cs) else none
  | [] => none

def expectChar (ch : Char) : List Char → Option (List Char)
  | c :: cs => if c = ch then some cs else none
  | [] => none

/-- The `(\d{2}:\d{2}:\d{2}\.\d{3})` timestamp group of `LOG_PATTERN`:
exactly two digits, `':'`, two digits, `':'`, two digits, `'.'`, three
digits; returns the twelve matched characters and the remaining input. -/
def matchTimestamp (cs : List Char) : Option (List Char × List Char) :=
  (takeDigit cs).bind fun p1 =>
  (takeDigit p1.2).bind fun p2 =>
  (expectChar ':' p2.2).bind fun r3 =>
  (takeDigit r3).bind fun p3 =>
  (takeDigit p3.2).bind fun p4 =>
  (expectChar ':' p4.2).bind fun r6 =>
  (takeDigit r6).bind fun p5 =>
  (takeDigit p5.2).bind fun p6 =>
  (expectChar '.' p6.2).bind fun r9 =>
  (takeDigit r9).bind fun p7 =>
  (takeDigit p7.2).bind fun p8 =>
  (takeDigit p8.2).bind fun p9 =>
  some ([p1.1, p2.1, ':', p3.1, p4.1, ':', p5.1, p6.1, '.', p7.1, p8.1, p9.1],
    p9.2)

/-- The `\[(\w+)\s*\]` level group: `'['`, a maximal nonempty `\w` run (the
group), maximal whitespace, `']'`. -/
def matchLevelGroup (cs : List Char) : Option (List Char × List Char) :=
  (expectChar '[' cs).bind fun r =>
  let w := r.takeWhile isWordChar
  if w.isEmpty then none
  else (expectChar ']' ((r.dropWhile isWordChar).dropWhile isWs)).bind fun r' =>
    some (w, r')

/-- A `\[([^\]]+)\]` group: `'['`, a maximal nonempty run of non-`']'`
characters (the group), `']'`. -/
def matchBracketed (cs : List Char) : Option (List Char × List Char) :=
  (expectChar '[' cs).bind fun r =>
  let field := r.takeWhile (· ≠ ']')
  if field.isEmpty then none
  else (expectChar ']' (r.dropWhile (· ≠ ']'))).bind fun r' =>
    some (field, r')

/-- `LOG_PATTERN.match` on an already-stripped line, followed by the entry
construction of `parse_line`: six bracketed fields, inter-field `\s*`, and
the free-text message `(.*)` (the rest of the line — the line carries no
newline after stripping).  `level` is `match.group(2).strip()`; the group
is a `\w+` run so the strip is the identity, but the call is kept. -/
def matchLogLine (cs : List Char) (line_num : Nat) : Option LogEntry :=
  (expectChar '[' cs).bind fun r0 =>
  (matchTimestamp r0).bind fun pts =>
  (expectChar ']' pts.2).bind fun r2 =>
  (matchLevelGroup (r2.dropWhile isWs)).bind fun plv =>
  (matchBracketed (plv.2.dropWhile isWs)).bind fun psc =>
  (matchBracketed (psc.2.dropWhile isWs)).bind fun psr =>
  (matchBracketed (psr.2.dropWhile isWs)).bind fun ptg =>
  some { timestamp := ⟨pts.1⟩, level := ⟨pyStrip plv.1⟩, scope := ⟨psc.1⟩,
         source := ⟨psr.1⟩, tag := ⟨ptg.1⟩,
         message := ⟨ptg.2.dropWhile isWs⟩, line_num := line_num }

/-- `parse_line`: strip the line, match the grammar; a failed match yields
`None`, modelled by `Option.none`. -/
def parse_line (line : String) (line_num : Nat) : Option LogEntry :=
  matchLogLine (pyStrip line.data) line_num

/-! ## Filter pipeline (`filter_entries` of `sim_log_parser.py`)

The configuration is modelled after the function's parameters, with the
time window already converted to milliseconds (see `parseTimeArg`).
Python truthiness: an empty level/tag/file set, an empty search string and
a zero millisecond bound are all falsy and disable their predicate, while
`veh_ids` is tested with `is not None`, so an empty vehicle set is NOT
disabled — the model keeps that distinction. -/

structure FilterConfig where
  levels : List String
  veh_ids : Option (List Nat)
  tags : List String
  files : List String
  include_global : Bool
  time_start_ms : Option Nat
  time_end_ms : Option Nat
  search : String

/-- Conversion of a `--from`/`--to` argument (`HH:MM[:SS[.mmm]]`) to
milliseconds, from the prologue of `filter_entries`: fewer than two
`':'`-separated parts leave the bound unset; a third part contributes whole
seconds (anything after a `'.'` is dropped); parts beyond the third are
ignored. -/
def parseTimeArg (t : String) : Option Nat :=
  match splitOnChar ':' t.data with
  | [] => none
  | [_] => none
  | hs :: mins :: rest =>
    let s := match rest with
      | [] => 0
      | r :: _ => strToNat ((splitOnChar '.' r).headD [])
    some (((strToNat hs * 60 + strToNat mins) * 60 + s) * 1000)

/-- `if levels and entry.level not in levels: continue`. -/
def levelSkip (cfg : FilterConfig) (e : LogEntry) : Bool :=
  !cfg.levels.isEmpty && !cfg.levels.contains e.level

/-- The vehicle filter block: active only when `veh_ids is not None`; a
global entry is kept iff `include_global`; a non-global entry is kept iff
its vehicle id is in the set (an entry that is neither global nor
`veh:<digits>` has `veh_id = None ∉ veh_ids` and is skipped). -/
def vehSkip (cfg : FilterConfig) (e : LogEntry) : Bool :=
  match cfg.veh_ids with
  | none => false
  | some vs =>
    if e.is_global then !cfg.include_global
    else
      match e.veh_id with
      | some v => !vs.contains v
      | none => true

/-- `if tags and entry.tag not in tags: continue`. -/
def tagSkip (cfg : FilterConfig) (e : LogEntry) : Bool :=
  !cfg.tags.isEmpty && !cfg.tags.contains e.tag

/-- `if files and entry.file_name not in files: continue`. -/
def fileSkip (cfg : FilterConfig) (e : LogEntry) : Bool :=
  !cfg.files.isEmpty && !cfg.files.contains e.file_name

/-- `if time_start_ms and entry.time_ms < time_start_ms: continue` —
note the Python truthiness test: a bound of `0` disables the check. -/
def timeStartSkip (cfg : FilterConfig) (e : LogEntry) : Bool :=
  match cfg.time_start_ms with
  | none => false
  | some v => v != 0 && decide (e.time_ms < v)

/-- `if time_end_ms and entry.time_ms > time_end_ms: continue` —
note the Python truthiness test: a bound of `0` disables the check. -/
def timeEndSkip (cfg : FilterConfig) (e : LogEntry) : Bool :=
  match cfg.time_end_ms with
  | none => false
  | some v => v != 0 && decide (v < e.time_ms)

/-- Python `str.lower()` (ASCII fragment). -/
def lowerChars (cs : List Char) : List Char := cs.map Char.toLower

/-- Python `needle in hay` on strings: contiguous substring test. -/
def containsSub (needle : List Char) : List Char → Bool
  | [] => needle.isEmpty
  | c :: cs => needle.isPrefixOf (c :: cs) || containsSub needle cs

/-- `if search and search.lower() not in entry.message.lower(): continue`. -/
def searchSkip (cfg : FilterConfig) (e : LogEntry) : Bool :=
  !cfg.search.isEmpty &&
    !containsSub (lowerChars cfg.search.data) (lowerChars e.message.data)

/-- The per-entry pass/skip decision of the `filter_entries` loop: the
`continue` tests in source order; the entry is yielded iff none fires. -/
def passesFilter (cfg : FilterConfig) (e : LogEntry) : Bool :=
  if levelSkip cfg e then false
  else if vehSkip cfg e then false
  else if tagSkip cfg e then false
  else if fileSkip cfg e then false
  else if timeStartSkip cfg e then false
  else if timeEndSkip cfg e then false
  else if searchSkip cfg e then false
  else true

/-- `filter_entries` on a materialised entry stream. -/
def filter_entries (cfg : FilterConfig) (entries : List LogEntry) : List LogEntry :=
  entries.filter (passesFilter cfg)

/-- The seven individual predicates of the filter pipeline (pass form), in
source order. -/
def predList (cfg : FilterConfig) : List (LogEntry → Bool) :=
  [fun e => !levelSkip cfg e, fun e => !vehSkip cfg e,
   fun e => !tagSkip cfg e, fun e => !fileSkip cfg e,
   fun e => !timeStartSkip cfg e, fun e => !timeEndSkip cfg e,
   fun e => !searchSkip cfg e]

/-! ## Partition writer (`split_by_veh` of `sim_log_parser.py`)

`veh_files` is a dict from vehicle id to an open sink, opened lazily on the
first write for that key; `global_file` is the lazily-opened catch-all
sink.  A sink's contents are modelled as the list of strings written to it
(`f.write` calls), so a sink's line count is the list length: every write
in `split_by_veh` is exactly one line (an unparsed line is written verbatim
and already carries its newline; a parsed entry is written as
`str(entry) + '\n'`). -/

/-- Write one string to the sink for key `v`, opening it (appending a new
key at the end, like dict insertion order) when absent. -/
def writeVeh : List (Nat × List String) → Nat → String → List (Nat × List String)
  | [], v, s => [(v, [s])]
  | (k, ls) :: rest, v, s =>
    if k = v then (k, ls ++ [s]) :: rest else (k, ls) :: writeVeh rest v s

/-- Contents of the sink for key `v` (`[]` when that sink was never
opened). -/
def lookupVeh : List (Nat × List String) → Nat → List String
  | [], _ => []
  | (k, ls) :: rest, v => if k = v then ls else lookupVeh rest v

/-- `veh_counts[veh_id] += 1` on the defaultdict. -/
def bumpCount : List (Nat × Nat) → Nat → List (Nat × Nat)
  | [], v => [(v, 1)]
  | (k, n) :: rest, v => if k = v then (k, n + 1) :: rest else (k, n) :: bumpCount rest v

/-- Python `f"{s:5}"`: left-justify in a field of width `n`. -/
def padRight (s : String) (n : Nat) : String :=
  s ++ ⟨List.replicate (n - s.length) ' '⟩

/-- `LogEntry.__str__`. -/
def entryStr (e : LogEntry) : String :=
  "[" ++ e.timestamp ++ "] [" ++ padRight e.level 5 ++ "] [" ++ e.scope ++ "] ["
    ++ e.source ++ "] [" ++ e.tag ++ "] " ++ e.message

/-- The mutable state of one `split_by_veh` pass. -/
structure SplitState where
  vehSinks : List (Nat × List String)
  globalSink : Option (List String)
  vehCounts : List (Nat × Nat)
  total : Nat
  skipped : Nat
  globalCount : Nat
deriving Repr

def initSplitState : SplitState := ⟨[], none, [], 0, 0, 0⟩

/-- The body of the `split_by_veh` reading loop for one line: count it;
an unparsable line goes verbatim to the (lazily opened) global sink; a
parsed entry goes to the sink of its vehicle id, or to the global sink when
it has none. -/
def splitStep (st : SplitState) (lineNum : Nat) (line : String) : SplitState :=
  let st := { st with total := st.total + 1 }
  match parse_line line lineNum with
  | none =>
    { st with globalSink := some (st.globalSink.getD [] ++ [line]),
              skipped := st.skipped + 1 }
  | some e =>
    match e.veh_id with
    | some v =>
      { st with vehSinks := writeVeh st.vehSinks v (entryStr e ++ "\n"),
                vehCounts := bumpCount st.vehCounts v }
    | none =>
      { st with globalSink := some (st.globalSink.getD [] ++ [entryStr e ++ "\n"]),
                globalCount := st.globalCount + 1 }

/-- The loop over `enumerate(f, 1)`. -/
def splitRun : SplitState → Nat → List String → SplitState
  | st, _, [] => st
  | st, n, l :: ls => splitRun (splitStep st n l) (n + 1) ls

/-- `split_by_veh` over the lines of the input file. -/
def split_by_veh (lines : List String) : SplitState :=
  splitRun initSplitState 1 lines

/-- Total number of lines written across all sinks. -/
def sinkTotal (st : SplitState) : Nat :=
  (st.globalSink.getD []).length + (st.vehSinks.map (fun p => p.2.length)).sum

/-- Contents of one sink: `none` is the global sink, `some v` the sink of
vehicle `v`; a sink never opened has no contents. -/
def sinkContents (st : SplitState) : Option Nat → List String
  | none => st.globalSink.getD []
  | some v => lookupVeh st.vehSinks v

/-- The sink a line is routed to: the vehicle sink when the line parses and
its scope carries a vehicle id, the global sink otherwise (including
unparsable lines). -/
def routeKey (line : String) (n : Nat) : Option Nat :=
  match parse_line line n with
  | none => none
  | some e => e.veh_id

/-- What is written for the line: the raw line verbatim when it does not
parse, `str(entry) + '\n'` when it does. -/
def routedPayload (line : String) (n : Nat) : String :=
  match parse_line line n with
  | none => line
  | some e => entryStr e ++ "\n"

/-! ## Sink cleanup (`finally` block of `split_by_veh`)

```
finally:
    for f in veh_files.values():
        f.close()
    if global_file:
        global_file.close()
```

A sink handle is abstracted to whether its `close()` raises.  Python
semantics: the `finally` block runs whether the pass ended normally or by
an exception, but an exception raised by one `close()` inside it
immediately aborts the block. -/

/-- One pass's open sinks at cleanup time: the veh sinks in dict insertion
order (each with whether its `close()` raises), and the global sink. -/
structure OpenSinks where
  vehFails : List Bool
  globalOpen : Bool
  globalFails : Bool

/-- The `for f in veh_files.values(): f.close()` loop, starting at sink
index `i`: returns the indices whose `close()` was attempted and whether an
exception escaped the loop (aborting it). -/
def closeVehLoop : Nat → List Bool → List Nat × Bool
  | _, [] => ([], false)
  | i, fails :: rest =>
    if fails then ([i], true)
    else
      let r := closeVehLoop (i + 1) rest
      (i :: r.1, r.2)

/-- The whole `finally` block: the veh-sink loop, then — only if no close
raised — the global close (the global sink is numbered `vehFails.length`).
Returns attempted indices and whether an exception escaped. -/
def runCleanup (s : OpenSinks) : List Nat × Bool :=
  let r := closeVehLoop 0 s.vehFails
  if r.2 then (r.1, true)
  else if s.globalOpen then (r.1 ++ [s.vehFails.length], s.globalFails)
  else (r.1, false)

/-- Indices of every sink open when the pass ends. -/
def allOpenSinks (s : OpenSinks) : List Nat :=
  List.range s.vehFails.length ++ (if s.globalOpen then [s.vehFails.length] else [])

/-! ## Canonical timestamp strings -/

/-- The decimal digit character for `n < 10`. -/
def digCh (n : Nat) : Char := Char.ofNat (48 + n)

/-- The canonical `HH:MM:SS.mmm` string for `h, m, s < 100`, `ms < 1000` —
exactly the strings the timestamp group of `LOG_PATTERN` accepts. -/
def fmtTs (h m s ms : Nat) : String :=
  ⟨[digCh (h / 10), digCh (h % 10), ':', digCh (m / 10), digCh (m % 10), ':',
    digCh (s / 10), digCh (s % 10), '.',
    digCh (ms / 100), digCh (ms / 10 % 10), digCh (ms % 10)]⟩

/-! ## Sample inputs -/

/-- 28 bytes whose three padding bytes (offsets 25-27, values 26, 27, 28)
are nonzero. -/
def padBytes : List Nat :=
  [1, 2, 3, 4, 5, 6, 7, 8, 9, 10, 11, 12, 13, 14, 15, 16, 17, 18, 19, 20,
   21, 22, 23, 24, 25, 26, 27, 28]

/-- The same 28 bytes with the padding zeroed. -/
def zeroPadBytes : List Nat :=
  [1, 2, 3, 4, 5, 6, 7, 8, 9, 10, 11, 12, 13, 14, 15, 16, 17, 18, 19, 20,
   21, 22, 23, 24, 25, 0, 0, 0]

/-- A transit record with `exit_time = enter_time` (degenerate duration). -/
def degenRecord : EdgeTransitRecord :=
  { timestamp := 100, worker_id := 0, fab_id := 0, edge_id := 7, veh_id := 3,
    enter_time := 500, exit_time := 500, edge_length := 3, edge_type := 0 }

/-- A 10-line text log: 7 parsable lines over vehicles `{1, 2}` and the
global scope, and 3 unparsed lines. -/
def demoLines : List String :=
  ["[00:00:01.000] [INFO ] [veh:1] [A.ts:1] [T] a\n",
   "[00:00:02.000] [INFO ] [veh:2] [A.ts:2] [T] b\n",
   "junk1\n",
   "[00:00:03.000] [WARN ] [veh:1] [A.ts:3] [T] c\n",
   "junk2\n",
   "[00:00:04.000] [INFO ] [global] [A.ts:4] [T] d\n",
   "[00:00:05.000] [ERROR] [veh:2] [A.ts:5] [T] e\n",
   "junk3\n",
   "[00:00:06.000] [INFO ] [veh:1] [A.ts:6] [T] f\n",
   "[00:00:07.000] [DEBUG] [global] [A.ts:7] [T] g\n"]

/-- A parsed entry with `time_ms = 1500`. -/
def entry1500 : LogEntry :=
  { timestamp := "00:00:01.500", level := "INFO", scope := "veh:7",
    source := "Foo.ts:10", tag := "Nav", message := "moving", line_num := 1 }

/-- A filter configuration with every predicate unset. -/
def emptyFilter : FilterConfig :=
  { levels := [], veh_ids := none, tags := [], files := [],
    include_global := true, time_start_ms := none, time_end_ms := none,
    search := "" }

/-- A filter configuration with only the time window set. -/
def windowFilter (a b : Nat) : FilterConfig :=
  { emptyFilter with time_start_ms := some a, time_end_ms := some b }

/-- A parsed entry whose timestamp is past the 24-hour mark. -/
def entry25h : LogEntry :=
  { timestamp := "25:03:04.567", level := "INFO", scope := "global",
    source := "A.ts:1", tag := "T", message := "x", line_num := 1 }

/-- A well-formed log line whose hour field is the two-digit rendering of
`h < 100`. -/
def hourLine (h : Nat) : String :=
  "[" ++ fmtTs h 0 0 0 ++ "] [INFO ] [global] [A.ts:1] [T] msg"

/-!
# Theorems
-/

/-! ### C7 — the fixed-record decoder yields `⌊L/28⌋` records -/

/-- C7: for every byte source of length `L`, the fixed-record reading loop
produces exactly `L / 28` records — it stops when fewer than 28 bytes
remain, dropping a trailing partial record, and never fails. -/
theorem C7_record_count (bs : List Nat) :
    (parse_log_file bs).length = bs.length / 28 := by
  induction bs using parse_log_file.induct with
  | case1 bs h ih =>
    rw [parse_log_file, dif_pos h]
    simp only [List.length_cons, ih, List.length_drop]
    omega
  | case2 bs h =>
    rw [parse_log_file, dif_neg h]
    simp only [List.length_nil]
    omega

/-! ### C2 — decode → re-encode round trip -/

/-- C2 (counterexample): the claim fails as stated — a 28-byte record whose
padding bytes at offsets 25-27 are nonzero decodes without error, but
re-encoding writes zero padding (`struct.pack`'s `3x`), so the original
bytes are not reproduced. -/
theorem C2_counterexample :
    padBytes.length = 28 ∧ (∀ b ∈ padBytes, b < 256) ∧
    encodeRecord (decodeRecord28 padBytes) ≠ padBytes := by
  refine ⟨by decide, by decide, by decide⟩

/-- C2 (amended): for every 28-byte input record whose three padding bytes
at offset 25 are zero (and whose `edgeLength` bytes are not a NaN pattern —
the caveat under which `struct`'s `f32 → float → f32` conversion is
byte-exact, see `isNaN32`), decoding to a record and re-encoding it
reproduces the original 28 bytes exactly. -/
theorem C2_roundtrip_zero_padding (bs : List Nat) (hlen : bs.length = 28)
    (hbyte : ∀ b ∈ bs, b < 256)
    (_hnotnan : ¬ isNaN32 (decodeRecord28 bs).edgeLengthBits)
    (h25 : bs.getD 25 0 = 0) (h26 : bs.getD 26 0 = 0) (h27 : bs.getD 27 0 = 0) :
    encodeRecord (decodeRecord28 bs) = bs := by
  clear _hnotnan
  rcases bs with _ | ⟨b0, _ | ⟨b1, _ | ⟨b2, _ | ⟨b3, _ | ⟨b4, _ | ⟨b5, _ | ⟨b6,
    _ | ⟨b7, _ | ⟨b8, _ | ⟨b9, _ | ⟨b10, _ | ⟨b11, _ | ⟨b12, _ | ⟨b13, _ | ⟨b14,
    _ | ⟨b15, _ | ⟨b16, _ | ⟨b17, _ | ⟨b18, _ | ⟨b19, _ | ⟨b20, _ | ⟨b21,
    _ | ⟨b22, _ | ⟨b23, _ | ⟨b24, _ | ⟨b25, _ | ⟨b26, _ | ⟨b27,
    rest⟩⟩⟩⟩⟩⟩⟩⟩⟩⟩⟩⟩⟩⟩⟩⟩⟩⟩⟩⟩⟩⟩⟩⟩⟩⟩⟩⟩ <;>
    simp only [List.length_cons, List.length_nil] at hlen <;> try omega
  obtain rfl : rest = [] := by
    cases rest with
    | nil => rfl
    | cons a t => exfalso; simp only [List.length_cons] at hlen; omega
  simp only [List.forall_mem_cons] at hbyte
  obtain ⟨h0, h1, h2, h3, h4, h5, h6, h7, h8, h9, h10, h11, h12, h13, h14, h15,
    h16, h17, h18, h19, h20, h21, h22, h23, h24, hb25, hb26, hb27, -⟩ := hbyte
  have e25 : b25 = 0 := h25
  have e26 : b26 = 0 := h26
  have e27 : b27 = 0 := h27
  subst e25 e26 e27
  simp only [decodeRecord28, encodeRecord, le2, le4, List.cons.injEq, and_true]
  omega

/-- C2 (witness): the amended round trip at a concrete zero-padding
record. -/
theorem C2_roundtrip_zero_padding_witness :
    encodeRecord (decodeRecord28 zeroPadBytes) = zeroPadBytes :=
  C2_roundtrip_zero_padding zeroPadBytes (by decide) (by decide) (by decide)
    (by decide) (by decide) (by decide)

/-! ### C3 — degenerate speed -/

/-- C3 (counterexample): the claim fails as stated — for a record with
`exitTime <= enterTime` the derived `speed` is the sentinel number `0.0`,
not an explicit "no value" (the spec-modelled absent representation
`speedSpec` would be `none` here). -/
theorem C3_counterexample :
    degenRecord.exit_time ≤ degenRecord.enter_time ∧
    degenRecord.speed = 0 ∧ speedSpec degenRecord = none := by
  refine ⟨by decide, by decide, by decide⟩

/-- C3 (amended): for every `TransitRecord` with `exitTime <= enterTime`,
the derived speed is the sentinel `0.0` — in particular it is never
negative or infinite — while the spec's explicit-"no value" representation
of the same quantity would be absent. -/
theorem C3_speed_sentinel (r : EdgeTransitRecord)
    (h : r.exit_time ≤ r.enter_time) :
    r.speed = 0 ∧ speedSpec r = none := by
  have ht : r.transit_time ≤ 0 := by
    unfold EdgeTransitRecord.transit_time
    omega
  rw [EdgeTransitRecord.speed, speedSpec, if_pos ht, if_pos ht]
  exact ⟨rfl, rfl⟩

/-- C3 (witness): the amended statement at a concrete degenerate record. -/
theorem C3_speed_sentinel_witness :
    degenRecord.speed = 0 ∧ speedSpec degenRecord = none :=
  C3_speed_sentinel degenRecord (by decide)

/-! ### C8 — checkpoint-flag decoding -/

theorem and_two_pow_ne (f i : Nat) : f &&& 2 ^ i ≠ 0 ↔ f.testBit i := by
  rw [Nat.and_two_pow]
  cases h : f.testBit i <;> simp [h]

/-- C8 (counterexample): the claim fails as stated for the nonzero value
`16`: none of the four named bits is set, so the "names of the set bits
joined by `|`" would be the empty string, but `decode_checkpoint_flags`
returns the fallback label `UNKNOWN(16)`. -/
theorem C8_counterexample :
    (16 : Nat) ≠ 0 ∧ decode_checkpoint_flags 16 ≠ claimedFlagsStr 16 := by
  refine ⟨by decide, by decide⟩

/-- C8 (amended): flag value `0` decodes to the distinguished label
`COMPLETED`; `0x05` decodes to `LOCK_REQUEST|LOCK_RELEASE`; every value
with at least one of the four named bits set decodes to the names of its
set bits joined by `|`; and a nonzero value with none of those bits set
decodes to the fallback `UNKNOWN(value)`. -/
theorem C8_checkpoint_flags (f : Nat) :
    decode_checkpoint_flags 0 = "COMPLETED" ∧
    decode_checkpoint_flags 5 = "LOCK_REQUEST|LOCK_RELEASE" ∧
    ((f.testBit 0 ∨ f.testBit 1 ∨ f.testBit 2 ∨ f.testBit 3) →
      decode_checkpoint_flags f = claimedFlagsStr f) ∧
    (f ≠ 0 → ¬ f.testBit 0 → ¬ f.testBit 1 → ¬ f.testBit 2 → ¬ f.testBit 3 →
      decode_checkpoint_flags f = "UNKNOWN(" ++ Nat.repr f ++ ")") := by
  have h1 := and_two_pow_ne f 0
  have h2 := and_two_pow_ne f 1
  have h4 := and_two_pow_ne f 2
  have h8 := and_two_pow_ne f 3
  norm_num at h1 h2 h4 h8
  refine ⟨by decide, by decide, ?_, ?_⟩
  · intro hbit
    have hf0 : f ≠ 0 := by
      rintro rfl
      simp [Nat.testBit] at hbit
    rw [decode_checkpoint_flags, if_neg hf0, claimedFlagsStr]
    by_cases b0 : f.testBit 0 <;> by_cases b1 : f.testBit 1 <;>
      by_cases b2 : f.testBit 2 <;> by_cases b3 : f.testBit 3 <;>
      simp_all
  · intro hf0 b0 b1 b2 b3
    rw [decode_checkpoint_flags, if_neg hf0]
    simp_all

/-- C8 (witness): the bit-join branch applied at `0x05` and the fallback
branch applied at `16`. -/
theorem C8_checkpoint_flags_witness :
    decode_checkpoint_flags 5 = claimedFlagsStr 5 ∧
    decode_checkpoint_flags 16 = "UNKNOWN(" ++ Nat.repr 16 ++ ")" :=
  ⟨(C8_checkpoint_flags 5).2.2.1 (by decide),
   (C8_checkpoint_flags 16).2.2.2 (by decide) (by decide) (by decide)
     (by decide) (by decide)⟩

/-! ### C4 — sink cleanup -/

theorem closeVehLoop_all_ok : ∀ (l : List Bool) (i : Nat), (∀ b ∈ l, b = false) →
    closeVehLoop i l = (List.range' i l.length, false) := by
  intro l
  induction l with
  | nil => intro i _; rfl
  | cons b rest ih =>
    intro i hall
    have hb : b = false := hall b (by simp)
    subst hb
    simp only [closeVehLoop, if_neg (by simp : ¬ (false = true))]
    rw [ih (i + 1) (fun x hx => hall x (by simp [hx]))]
    simp [List.range'_succ]

/-- C4 (counterexample): the claim fails as stated — when the first veh
sink's `close()` raises, the `finally` block attempts no further close:
with two veh sinks and an open global sink, only sink 0 is attempted,
sinks 1 and 2 (the global sink) are left without a close attempt. -/
theorem C4_counterexample :
    (runCleanup ⟨[true, false], true, false⟩).1 = [0] ∧
    allOpenSinks ⟨[true, false], true, false⟩ = [0, 1, 2] ∧
    (runCleanup ⟨[true, false], true, false⟩).1 ≠
      allOpenSinks ⟨[true, false], true, false⟩ := by
  refine ⟨by decide, by decide, by decide⟩

/-- C4 (amended): when the split pass ends — normally or by an exception —
the `finally` block closes the veh sinks in sequence and then the global
sink; provided no veh-sink `close()` raises, every sink opened during the
pass receives a close attempt (the global sink is attempted even when its
own close raises).  If a veh-sink close raises, the exception propagates
at once and the remaining sinks, including the global sink, are not
attempted. -/
theorem C4_cleanup_all_attempted (s : OpenSinks)
    (h : ∀ b ∈ s.vehFails, b = false) :
    (runCleanup s).1 = allOpenSinks s := by
  rw [runCleanup, allOpenSinks, closeVehLoop_all_ok s.vehFails 0 h]
  rw [← List.range_eq_range' s.vehFails.length]
  cases hg : s.globalOpen <;> simp

/-- C4 (witness): the amended statement at two non-raising veh sinks plus a
global sink whose own close raises. -/
theorem C4_cleanup_all_attempted_witness :
    (runCleanup ⟨[false, false], true, true⟩).1 =
      allOpenSinks ⟨[false, false], true, true⟩ :=
  C4_cleanup_all_attempted ⟨[false, false], true, true⟩ (by decide)

/-! ### C1 — split conservation and routing -/

theorem sumVeh_writeVeh (sinks : List (Nat × List String)) (v : Nat) (s : String) :
    ((writeVeh sinks v s).map (fun p => p.2.length)).sum =
      (sinks.map (fun p => p.2.length)).sum + 1 := by
  induction sinks with
  | nil => simp [writeVeh]
  | cons kl rest ih =>
    obtain ⟨k, ls⟩ := kl
    by_cases hk : k = v <;> simp [writeVeh, hk, ih] <;> omega

theorem lookupVeh_writeVeh_same (sinks : List (Nat × List String)) (v : Nat)
    (s : String) :
    lookupVeh (writeVeh sinks v s) v = lookupVeh sinks v ++ [s] := by
  induction sinks with
  | nil => simp [writeVeh, lookupVeh]
  | cons kl rest ih =>
    obtain ⟨k, ls⟩ := kl
    by_cases hk : k = v
    · subst hk
      simp [writeVeh, lookupVeh]
    · simp [writeVeh, lookupVeh, hk, ih]

theorem lookupVeh_writeVeh_other (sinks : List (Nat × List String)) (v w : Nat)
    (s : String) (hw : w ≠ v) :
    lookupVeh (writeVeh sinks v s) w = lookupVeh sinks w := by
  induction sinks with
  | nil =>
    simp only [writeVeh, lookupVeh]
    rw [if_neg (fun h => hw h.symm)]
  | cons kl rest ih =>
    obtain ⟨k, ls⟩ := kl
    by_cases hk : k = v
    · simp only [writeVeh, if_pos hk, lookupVeh]
      subst hk
      rw [if_neg (fun h => hw h.symm), if_neg (fun h => hw h.symm)]
    · simp only [writeVeh, if_neg hk, lookupVeh]
      by_cases hkw : k = w
      · rw [if_pos hkw, if_pos hkw]
      · rw [if_neg hkw, if_neg hkw, ih]

theorem sinkTotal_splitStep (st : SplitState) (n : Nat) (line : String) :
    sinkTotal (splitStep st n line) = sinkTotal st + 1 := by
  unfold splitStep sinkTotal
  cases hp : parse_line line n with
  | none => simp; omega
  | some e =>
    cases hv : e.veh_id with
    | none => simp only [hv]; simp; omega
    | some v => simp only [hv]; simp [sumVeh_writeVeh]; omega

theorem sinkTotal_splitRun (lines : List String) : ∀ (st : SplitState) (n : Nat),
    sinkTotal (splitRun st n lines) = sinkTotal st + lines.length := by
  induction lines with
  | nil => intro st n; simp [splitRun]
  | cons l ls ih =>
    intro st n
    simp only [splitRun, ih, sinkTotal_splitStep, List.length_cons]
    omega

theorem split_sink_total (lines : List String) :
    sinkTotal (split_by_veh lines) = lines.length := by
  rw [split_by_veh, sinkTotal_splitRun]
  simp [initSplitState, sinkTotal]

theorem splitStep_routes (st : SplitState) (n : Nat) (line : String) :
    sinkContents (splitStep st n line) (routeKey line n) =
      sinkContents st (routeKey line n) ++ [routedPayload line n] ∧
    ∀ k, k ≠ routeKey line n →
      sinkContents (splitStep st n line) k = sinkContents st k := by
  cases hp : parse_line line n with
  | none =>
    have h1 : routeKey line n = none := by rw [routeKey, hp]
    have h2 : routedPayload line n = line := by rw [routedPayload, hp]
    rw [h1, h2]
    constructor
    · simp [splitStep, hp, sinkContents]
    · rintro (_ | v) hk
      · exact (hk rfl).elim
      · simp [splitStep, hp, sinkContents]
  | some e =>
    cases hv : e.veh_id with
    | none =>
      have h1 : routeKey line n = none := by rw [routeKey, hp]; exact hv
      have h2 : routedPayload line n = entryStr e ++ "\n" := by rw [routedPayload, hp]
      rw [h1, h2]
      constructor
      · simp [splitStep, hp, hv, sinkContents]
      · rintro (_ | v) hk
        · exact (hk rfl).elim
        · simp [splitStep, hp, hv, sinkContents]
    | some v =>
      have h1 : routeKey line n = some v := by rw [routeKey, hp]; exact hv
      have h2 : routedPayload line n = entryStr e ++ "\n" := by rw [routedPayload, hp]
      rw [h1, h2]
      constructor
      · simp [splitStep, hp, hv, sinkContents, lookupVeh_writeVeh_same]
      · rintro (_ | w) hk
        · simp [splitStep, hp, hv, sinkContents]
        · have hw : w ≠ v := fun h => hk (by rw [h])
          simp [splitStep, hp, hv, sinkContents,
            lookupVeh_writeVeh_other _ _ _ _ hw]

/-- C1: in split mode every input line is written to exactly one sink —
the step for a line appends its payload (the raw line when unparsable,
`str(entry) + '\n'` otherwise) to precisely the sink named by its route
key (vehicle sink when the scope yields a vehicle id, global sink
otherwise, including unparsable lines) and leaves every other sink
unchanged — and the total number of lines written across all sinks equals
the total number of input lines. -/
theorem C1_split_exactly_one_sink :
    (∀ lines : List String, sinkTotal (split_by_veh lines) = lines.length) ∧
    (∀ (st : SplitState) (n : Nat) (line : String),
      sinkContents (splitStep st n line) (routeKey line n) =
        sinkContents st (routeKey line n) ++ [routedPayload line n] ∧
      ∀ k, k ≠ routeKey line n →
        sinkContents (splitStep st n line) k = sinkContents st k) :=
  ⟨split_sink_total, splitStep_routes⟩

/-- C1 (witness): the conservation applied to the 10-line demo log (3
unparsed lines, vehicles `{1, 2}`), and non-routed sinks untouched at a
concrete step. -/
theorem C1_split_exactly_one_sink_witness :
    sinkTotal (split_by_veh demoLines) = demoLines.length ∧
    sinkContents (splitStep initSplitState 3 "junk1\n") (some 99) =
      sinkContents initSplitState (some 99) :=
  ⟨C1_split_exactly_one_sink.1 demoLines,
   (C1_split_exactly_one_sink.2 initSplitState 3 "junk1\n").2 (some 99) (by decide)⟩

/-! ### C9 — filter predicates commute -/

theorem passesFilter_eq_all (cfg : FilterConfig) (e : LogEntry) :
    passesFilter cfg e = (predList cfg).all (fun p => p e) := by
  simp only [predList, List.all_cons, List.all_nil, Bool.and_true]
  unfold passesFilter
  cases h1 : levelSkip cfg e <;> cases h2 : vehSkip cfg e <;>
    cases h3 : tagSkip cfg e <;> cases h4 : fileSkip cfg e <;>
    cases h5 : timeStartSkip cfg e <;> cases h6 : timeEndSkip cfg e <;>
    cases h7 : searchSkip cfg e <;> simp

/-- C9: the pass/skip decision of `filter_entries` is the conjunction of
the seven individual predicates and is order-independent: evaluating any
permutation of the predicate list yields exactly the code's pass/skip
result for every entry and every configuration. -/
theorem C9_filter_order_independent (cfg : FilterConfig) (e : LogEntry)
    (l : List (LogEntry → Bool)) (hperm : l.Perm (predList cfg)) :
    l.all (fun p => p e) = passesFilter cfg e := by
  rw [passesFilter_eq_all]
  cases hr : (predList cfg).all (fun p => p e) with
  | true =>
    rw [List.all_eq_true] at hr ⊢
    exact fun p hp => hr p (hperm.mem_iff.mp hp)
  | false =>
    rw [List.all_eq_false] at hr ⊢
    obtain ⟨p, hp, hfp⟩ := hr
    exact ⟨p, hperm.mem_iff.mpr hp, hfp⟩

/-- C9 (witness): the first two predicates swapped still compute the
filter's decision on a concrete entry. -/
theorem C9_filter_order_independent_witness :
    ((fun e => !vehSkip emptyFilter e) :: (fun e => !levelSkip emptyFilter e) ::
      (fun e => !tagSkip emptyFilter e) :: (fun e => !fileSkip emptyFilter e) ::
      (fun e => !timeStartSkip emptyFilter e) ::
      (fun e => !timeEndSkip emptyFilter e) ::
      [fun e => !searchSkip emptyFilter e]).all (fun p => p entry1500) =
      passesFilter emptyFilter entry1500 :=
  C9_filter_order_independent emptyFilter entry1500 _ (List.Perm.swap _ _ _)

/-! ### C5 — timestamp to milliseconds -/

theorem digCh_toNat {n : Nat} (h : n < 10) : (digCh n).toNat = 48 + n := by
  interval_cases n <;> rfl

theorem digCh_ne_colon {n : Nat} (h : n < 10) : ¬ (digCh n = ':') := by
  interval_cases n <;> decide

theorem digCh_ne_dot {n : Nat} (h : n < 10) : ¬ (digCh n = '.') := by
  interval_cases n <;> decide

theorem strToNat_two {a b : Nat} (ha : a < 10) (hb : b < 10) :
    strToNat [digCh a, digCh b] = 10 * a + b := by
  simp [strToNat, digCh_toNat ha, digCh_toNat hb]
  ring

theorem strToNat_three {a b c : Nat} (ha : a < 10) (hb : b < 10) (hc : c < 10) :
    strToNat [digCh a, digCh b, digCh c] = 100 * a + 10 * b + c := by
  simp [strToNat, digCh_toNat ha, digCh_toNat hb, digCh_toNat hc]
  ring

theorem timeMs_fmtTs (h m s ms : Nat) (hh : h < 100) (hm : m < 100)
    (hs : s < 100) (hms : ms < 1000) :
    timeMsOfChars (fmtTs h m s ms).data = ((h * 60 + m) * 60 + s) * 1000 + ms := by
  have c1 := digCh_ne_colon (show h / 10 < 10 by omega)
  have c2 := digCh_ne_colon (show h % 10 < 10 by omega)
  have c3 := digCh_ne_colon (show m / 10 < 10 by omega)
  have c4 := digCh_ne_colon (show m % 10 < 10 by omega)
  have c5 := digCh_ne_colon (show s / 10 < 10 by omega)
  have c6 := digCh_ne_colon (show s % 10 < 10 by omega)
  have c7 := digCh_ne_colon (show ms / 100 < 10 by omega)
  have c8 := digCh_ne_colon (show ms / 10 % 10 < 10 by omega)
  have c9 := digCh_ne_colon (show ms % 10 < 10 by omega)
  have d5 := digCh_ne_dot (show s / 10 < 10 by omega)
  have d6 := digCh_ne_dot (show s % 10 < 10 by omega)
  have d7 := digCh_ne_dot (show ms / 100 < 10 by omega)
  have d8 := digCh_ne_dot (show ms / 10 % 10 < 10 by omega)
  have d9 := digCh_ne_dot (show ms % 10 < 10 by omega)
  have e1 : splitOnChar ':' (fmtTs h m s ms).data =
      [[digCh (h / 10), digCh (h % 10)], [digCh (m / 10), digCh (m % 10)],
       [digCh (s / 10), digCh (s % 10), '.',
        digCh (ms / 100), digCh (ms / 10 % 10), digCh (ms % 10)]] := by
    show splitOnChar ':' [digCh (h / 10), digCh (h % 10), ':', digCh (m / 10),
      digCh (m % 10), ':', digCh (s / 10), digCh (s % 10), '.',
      digCh (ms / 100), digCh (ms / 10 % 10), digCh (ms % 10)] = _
    simp [splitOnChar, c1, c2, c3, c4, c5, c6, c7, c8, c9,
      (by decide : ¬ ('.' = ':'))]
  have e2 : splitOnChar '.' [digCh (s / 10), digCh (s % 10), '.',
      digCh (ms / 100), digCh (ms / 10 % 10), digCh (ms % 10)] =
      [[digCh (s / 10), digCh (s % 10)],
       [digCh (ms / 100), digCh (ms / 10 % 10), digCh (ms % 10)]] := by
    simp [splitOnChar, d5, d6, d7, d8, d9]
  rw [timeMsOfChars, e1]
  simp only
  rw [e2]
  simp only
  rw [strToNat_two (by omega) (by omega), strToNat_two (by omega) (by omega),
    strToNat_two (by omega) (by omega),
    strToNat_three (by omega) (by omega) (by omega)]
  omega

/-- C5: for every parsed entry whose timestamp is the string `H:MM:SS.mmm`
(with the two-digit hour field `H` the grammar admits, so `h < 100`),
`time_ms` equals `((h*60+m)*60+s)*1000 + ms`; it is non-negative (it is a
natural number — every component is a digit string); and hours are an
unbounded count, not reduced modulo 24: for `h ≥ 24` the value strictly
exceeds what the wrapped hour would give. -/
theorem C5_time_ms_formula (e : LogEntry) (h m s ms : Nat)
    (hh : h < 100) (hm : m < 100) (hs : s < 100) (hms : ms < 1000)
    (hts : e.timestamp = fmtTs h m s ms) :
    e.time_ms = ((h * 60 + m) * 60 + s) * 1000 + ms ∧
    0 ≤ e.time_ms ∧
    (24 ≤ h → (((h % 24) * 60 + m) * 60 + s) * 1000 + ms < e.time_ms) := by
  have base : e.time_ms = ((h * 60 + m) * 60 + s) * 1000 + ms := by
    show timeMsOfChars e.timestamp.data = _
    rw [hts]
    exact timeMs_fmtTs h m s ms hh hm hs hms
  refine ⟨base, Nat.zero_le _, fun h24 => ?_⟩
  rw [base]
  omega

/-- C5 (witness): the formula and the no-wrap inequality at the 25-hour
timestamp `25:03:04.567`. -/
theorem C5_time_ms_formula_witness :
    entry25h.time_ms = ((25 * 60 + 3) * 60 + 4) * 1000 + 567 ∧
    (((25 % 24) * 60 + 3) * 60 + 4) * 1000 + 567 < entry25h.time_ms := by
  have H := C5_time_ms_formula entry25h 25 3 4 567 (by decide) (by decide)
    (by decide) (by decide) (by decide)
  exact ⟨H.1, H.2.2 (by decide)⟩

/-! ### C6 — inclusive time window -/

/-- C6 (counterexample): the claim fails as stated — a configured window
of `[0 ms, 0 ms]` (both bounds convert from `"00:00:00"`) passes an entry
with `time_ms = 1500`, although `1500 ≤ 0` is false: Python's truthiness
test `if time_end_ms and ...` treats the 0-millisecond bound as unset. -/
theorem C6_counterexample :
    parseTimeArg "00:00:00" = some 0 ∧
    passesFilter (windowFilter 0 0) entry1500 = true ∧
    entry1500.time_ms = 1500 ∧ ¬ (entry1500.time_ms ≤ 0) := by
  refine ⟨by decide, by decide, by decide, by decide⟩

/-- C6 (amended): for every entry and every configured time window
`[start, end]` in milliseconds with both bounds nonzero, the filter passes
the entry iff `start ≤ timeMs ∧ timeMs ≤ end` — both endpoints inclusive.
A bound that converts to 0 ms is falsy in Python and disables that side of
the filter (harmless for the start bound, since `timeMs ≥ 0`, but a window
ending at 0 ms passes every entry). -/
theorem C6_time_window (e : LogEntry) (a b : Nat) (ha : a ≠ 0) (hb : b ≠ 0) :
    passesFilter (windowFilter a b) e = true ↔
      a ≤ e.time_ms ∧ e.time_ms ≤ b := by
  unfold passesFilter windowFilter emptyFilter
  simp [levelSkip, vehSkip, tagSkip, fileSkip, timeStartSkip, timeEndSkip,
    searchSkip, ha, hb, show ("" : String).isEmpty = true from rfl]

/-- C6 (witness): an entry whose `time_ms` equals both bounds passes — the
endpoints are inclusive. -/
theorem C6_time_window_witness :
    passesFilter (windowFilter 1500 1500) entry1500 = true :=
  (C6_time_window entry1500 1500 1500 (by decide) (by decide)).mpr (by decide)

/-! ### C10 — only two-digit hour fields parse -/

theorem dropWhile_isWs_bracket (xs : List Char) :
    List.dropWhile isWs ('[' :: xs) = '[' :: xs := by
  rw [List.dropWhile_cons, if_neg (by decide)]

theorem dropWsEnd_append_cons (l₁ l₂ : List Char) (c : Char) (hc : isWs c = false) :
    dropWsEnd (l₁ ++ c :: l₂) = l₁ ++ c :: dropWsEnd l₂ := by
  unfold dropWsEnd
  rw [show (l₁ ++ c :: l₂ : List Char).reverse = l₂.reverse ++ (c :: l₁.reverse) by
    simp [List.reverse_append]]
  rw [List.dropWhile_append]
  split
  case isTrue hemp =>
    rw [List.isEmpty_iff] at hemp
    rw [hemp, List.dropWhile_cons, hc]
    simp
  case isFalse hemp =>
    simp [List.reverse_append]

theorem pyStrip_bracket_colon (hs rest : List Char) :
    pyStrip ('[' :: hs ++ ':' :: rest) = '[' :: hs ++ ':' :: dropWsEnd rest := by
  unfold pyStrip
  rw [show ('[' :: hs ++ ':' :: rest : List Char).dropWhile isWs =
    '[' :: hs ++ ':' :: rest from dropWhile_isWs_bracket _]
  rw [show ('[' :: hs ++ ':' :: rest : List Char) = ('[' :: hs) ++ ':' :: rest by simp]
  rw [dropWsEnd_append_cons _ _ _ (by decide)]

theorem isDigit_ne_colon {c : Char} (h : c.isDigit) : ¬ (c = ':') := by
  intro he
  subst he
  exact absurd h (by decide)

theorem matchTimestamp_one_digit (d : Char) (hd : d.isDigit) (r : List Char) :
    matchTimestamp (d :: ':' :: r) = none := by
  unfold matchTimestamp
  rw [show takeDigit (d :: ':' :: r) = some (d, ':' :: r) from by simp [takeDigit, hd]]
  simp only [Option.some_bind]
  rw [show takeDigit (':' :: r) = none from by
    simp [takeDigit, show (':' : Char).isDigit = false from by decide]]
  rfl

theorem matchTimestamp_three_digits (d1 d2 d3 : Char) (h1 : d1.isDigit)
    (h2 : d2.isDigit) (h3 : d3.isDigit) (r : List Char) :
    matchTimestamp (d1 :: d2 :: d3 :: r) = none := by
  unfold matchTimestamp
  rw [show takeDigit (d1 :: d2 :: d3 :: r) = some (d1, d2 :: d3 :: r) from by
    simp [takeDigit, h1]]
  simp only [Option.some_bind]
  rw [show takeDigit (d2 :: d3 :: r) = some (d2, d3 :: r) from by simp [takeDigit, h2]]
  simp only [Option.some_bind]
  rw [show expectChar ':' (d3 :: r) = none from by
    simp [expectChar, isDigit_ne_colon h3]]
  rfl

theorem matchLogLine_bad_hour (hs : List Char) (hdig : ∀ c ∈ hs, c.isDigit)
    (hlen : hs.length = 1 ∨ 3 ≤ hs.length) (rest : List Char) (n : Nat) :
    matchLogLine ('[' :: hs ++ ':' :: rest) n = none := by
  rcases hlen with h1 | h3
  · obtain ⟨d, rfl⟩ : ∃ d, hs = [d] := by
      cases hs with
      | nil => simp at h1
      | cons a t =>
        cases t with
        | nil => exact ⟨a, rfl⟩
        | cons b u => simp at h1
    unfold matchLogLine
    rw [show expectChar '[' ('[' :: [d] ++ ':' :: rest) = some ([d] ++ ':' :: rest)
      from by simp [expectChar]]
    simp only [Option.some_bind, List.cons_append, List.nil_append]
    rw [matchTimestamp_one_digit d (hdig d (by simp)) rest]
    rfl
  · obtain ⟨d1, d2, d3, t, rfl⟩ : ∃ d1 d2 d3 t, hs = d1 :: d2 :: d3 :: t := by
      cases hs with
      | nil => simp at h3
      | cons a u =>
        cases u with
        | nil => simp at h3
        | cons b v =>
          cases v with
          | nil => simp at h3
          | cons c w => exact ⟨a, b, c, w, rfl⟩
    unfold matchLogLine
    rw [show expectChar '[' ('[' :: (d1 :: d2 :: d3 :: t) ++ ':' :: rest) =
      some ((d1 :: d2 :: d3 :: t) ++ ':' :: rest) from by simp [expectChar]]
    simp only [Option.some_bind, List.cons_append]
    rw [matchTimestamp_three_digits d1 d2 d3 (hdig d1 (by simp)) (hdig d2 (by simp))
      (hdig d3 (by simp)) (t ++ ':' :: rest)]
    rfl

theorem parse_line_bad_hour (hs : List Char) (hdig : ∀ c ∈ hs, c.isDigit)
    (hlen : hs.length = 1 ∨ 3 ≤ hs.length) (rest : List Char) (n : Nat) :
    parse_line ⟨'[' :: hs ++ ':' :: rest⟩ n = none := by
  show matchLogLine (pyStrip ('[' :: hs ++ ':' :: rest)) n = none
  rw [pyStrip_bracket_colon]
  exact matchLogLine_bad_hour hs hdig hlen (dropWsEnd rest) n

/-- C10: the line grammar admits exactly two-digit hour fields — a line
whose timestamp opens with a single digit before the first `':'`, or with
three or more digits (hours ≥ 100), fails `parse_line` (and so is counted
as unparsed), whatever follows; while every two-digit hour `00`-`99`
parses on a well-formed line.  The no-wrap handling of large hours
therefore applies exactly to hours 00-99. -/
theorem C10_two_digit_hours :
    (∀ (hs : List Char), (∀ c ∈ hs, c.isDigit) →
      (hs.length = 1 ∨ 3 ≤ hs.length) →
      ∀ (rest : List Char) (n : Nat),
        parse_line ⟨'[' :: hs ++ ':' :: rest⟩ n = none) ∧
    (∀ h < 100, (parse_line (hourLine h) 1).isSome = true) := by
  constructor
  · exact parse_line_bad_hour
  · decide

/-- C10 (witness): the three-digit hour `123` fails to parse; the
two-digit hour `25` parses. -/
theorem C10_two_digit_hours_witness :
    parse_line ⟨'[' :: ['1', '2', '3'] ++ ':' ::
      "00:00.000] [INFO ] [global] [A.ts:1] [T] msg".data⟩ 1 = none ∧
    (parse_line (hourLine 25) 1).isSome = true :=
  ⟨C10_two_digit_hours.1 ['1', '2', '3'] (by decide) (by decide) _ 1,
   C10_two_digit_hours.2 25 (by decide)⟩

end VPS
